import Mathlib

/-!
Verification of the statSearch repository.

Shallow embedding of:
- `tracker.py` (`qualifies`, the threshold evaluator),
- `boxscore_controller.py` (`validate_boxscores`, `persist_boxscores`,
  `fetch_boxscores`, the multi-source fallback controller),
- `fantasy/merge_pipeline.py` (`normalize_player_name`, `fuzzy_match_players`,
  `calculate_fantasy_points`, `merge_fantasy_with_boxscores`).

Modelling conventions:
- Python floats/ints are modelled as exact rationals/integers (`ℚ`/`ℤ`).
- A raised exception from a provider adapter is modelled as `Except.error msg`
  where `msg` is the string of the exception; a normal return is `Except.ok`.
- Disk persistence is modelled by an explicit `diskFails : Bool` parameter: the
  body of `persist_boxscores` either succeeds or raises, and the enclosing
  `try/except` of the Python code turns the failure into a printed note, which
  we return as an `Option String`. The caller discards it, as in the source.
- Side effects that the claims quantify over (which adapters were invoked) are
  made explicit: the controller returns, next to the result of the Python
  function, the list of provider names whose adapter was called, in call
  order. `print` diagnostics are otherwise dropped.
-/

namespace StatSearch

/-! ## tracker.py — threshold evaluator

`qualifies(pts, ast, reb, pts_thr, ast_thr, reb_thr, logic)`: one check
`stat >= thr` per *provided* threshold; with no thresholds the fixed default
`pts >= 20 or ast >= 5 or reb >= 7` applies regardless of `logic`; otherwise
`any(checks)` when `logic == "any"`, else `all(checks)`. -/

def qualifies (pts ast reb : ℚ) (pts_thr ast_thr reb_thr : Option ℤ)
    (logic : String) : Bool :=
  let checks : List Bool :=
    (match pts_thr with | some t => [decide (pts ≥ (t : ℚ))] | none => []) ++
    (match ast_thr with | some t => [decide (ast ≥ (t : ℚ))] | none => []) ++
    (match reb_thr with | some t => [decide (reb ≥ (t : ℚ))] | none => [])
  if checks.isEmpty then
    decide (pts ≥ 20) || decide (ast ≥ 5) || decide (reb ≥ 7)
  else if logic = "any" then checks.any id else checks.all id

/-! ## boxscore_controller.py — validator -/

/-- One box-score record (a Python dict). A field that may be missing from the
dict is an `Option`; the numeric stats are exact rationals. -/
structure Box where
  game_id : Option String
  game_date : Option String
  player : Option String
  team : Option String
  pts : Option ℚ
  reb : Option ℚ
  ast : Option ℚ
deriving DecidableEq, Repr

/-- The per-record body of the `for box in boxscores` loop of
`validate_boxscores`: all seven required fields present, then the numeric
bounds `0 <= pts <= 100`, `0 <= reb <= 40`, `0 <= ast <= 30`. -/
def boxValid (b : Box) : Bool :=
  b.game_id.isSome && b.game_date.isSome && b.player.isSome && b.team.isSome &&
  b.pts.isSome && b.reb.isSome && b.ast.isSome &&
  (match b.pts with | some p => decide (0 ≤ p ∧ p ≤ 100) | none => false) &&
  (match b.reb with | some r => decide (0 ≤ r ∧ r ≤ 40) | none => false) &&
  (match b.ast with | some a => decide (0 ≤ a ∧ a ≤ 30) | none => false)

/-- `validate_boxscores`: an empty batch is invalid; otherwise every record
must pass `boxValid` (the Python loop returns `False` on the first offending
record, which is extensionally `List.all`). Pure, no side effects. -/
def validate_boxscores (boxscores : List Box) : Bool :=
  if boxscores.isEmpty then false
  else boxscores.all boxValid

/-! ## boxscore_controller.py — persistence sink and fallback controller -/

/-- A provider adapter: `source_func(date_str, game_id)`. A raised exception is
`Except.error msg` (with `msg = str(e)`), a normal return is `Except.ok`. -/
abbrev Adapter := String → Option String → Except String (List Box)

/-- The result dictionary built by `fetch_boxscores`; it has exactly the keys
`success`, `date`, `game_id`, `source`, `boxscores`, `errors`. -/
structure FetchResult where
  success : Bool
  date : String
  game_id : Option String
  source : Option String
  boxscores : List Box
  errors : List String
deriving DecidableEq, Repr

/-- `persist_boxscores`: the whole body runs inside `try/except Exception`.
`diskFails` models whether the directory creation / writes raise (e.g. a
read-only filesystem); the exception is swallowed and turned into a printed
note, returned here as `some note`, which the caller ignores. It never
re-raises. -/
def persist_boxscores (_boxscores : List Box) (_source : String)
    (_date_str : String) (diskFails : Bool) : Option String :=
  if diskFails then some "Note: Could not persist data (read-only filesystem)"
  else none

/-- The provider loop of `fetch_boxscores` (`for source_name, source_func in
sources`), with the accumulated result dictionary threaded through. Returns
the result together with the names of the adapters that were invoked, in call
order. A winning provider (non-empty batch passing `validate_boxscores`)
persists (output discarded) and returns immediately; an adapter exception
appends `"<name> error: <msg>"` to `errors` and continues; an empty or invalid
batch only prints a diagnostic (dropped here) and continues; when the list is
exhausted `"All sources failed to return valid box scores"` is appended. -/
def fetchLoop (date_str : String) (game_id : Option String) (diskFails : Bool) :
    List (String × Adapter) → FetchResult → FetchResult × List String
  | [], result =>
    ({ result with
        errors := result.errors ++ ["All sources failed to return valid box scores"] },
     [])
  | (source_name, source_func) :: rest, result =>
    match source_func date_str game_id with
    | Except.ok boxscores =>
      if !boxscores.isEmpty && validate_boxscores boxscores then
        let _note := persist_boxscores boxscores source_name date_str diskFails
        ({ result with
            success := true
            source := some source_name
            boxscores := boxscores },
         [source_name])
      else
        let next := fetchLoop date_str game_id diskFails rest result
        (next.1, source_name :: next.2)
    | Except.error e =>
      let next := fetchLoop date_str game_id diskFails rest
        { result with errors := result.errors ++ [source_name ++ " error: " ++ e] }
      (next.1, source_name :: next.2)

/-- `if force_source: sources = [(n, f) for n, f in sources if n == force_source]`.
Python truthiness: `None` and the empty string leave the list unchanged. -/
def filterSources (sources : List (String × Adapter)) (force_source : Option String) :
    List (String × Adapter) :=
  match force_source with
  | some s => if s ≠ "" then sources.filter (fun p => p.1 = s) else sources
  | none => sources

/-- `fetch_boxscores(date_str, game_id, force_source)`, parametrised by the
fallback-ordered provider list (in the source, the fixed
`[("NBA_API", ...), ("ESPN_API", ...)]`, see `knownSources`) and by the disk
model of `persist_boxscores`. Returns the result dictionary and the invoked
provider names. -/
def fetch_boxscores (sources : List (String × Adapter)) (date_str : String)
    (game_id : Option String) (force_source : Option String) (diskFails : Bool) :
    FetchResult × List String :=
  fetchLoop date_str game_id diskFails (filterSources sources force_source)
    { success := false, date := date_str, game_id := game_id, source := none,
      boxscores := [], errors := [] }

/-- The fixed fallback order hard-coded in `fetch_boxscores`; the two HTTP
adapters (`sources/nba_api_source.py`, `sources/espn_api_source.py`) are
external collaborators, taken as parameters. -/
def knownSources (nba espn : Adapter) : List (String × Adapter) :=
  [("NBA_API", nba), ("ESPN_API", espn)]

/-! ## fantasy/merge_pipeline.py — name normalization

`normalize_player_name` performs, in order:
1. re.sub of the pattern `\s+(Jr\.|Sr\.|III|II|IV)\.?$` by the empty string,
   with re.IGNORECASE;
2. re.sub of the pattern `[^a-z\s]` by the empty string, on name.lower();
3. joining name.split() with single spaces.
Strings are modelled as their character lists. -/

/-- Python `\s` on ASCII text: space, tab, newline, carriage return, vertical
tab, form feed. -/
def isPySpace (c : Char) : Bool :=
  c = ' ' || c = '\t' || c = '\n' || c = '\r' || c = '\x0b' || c = '\x0c'

/-- The lower-cased alternatives of the suffix group `(Jr\.|Sr\.|III|II|IV)`. -/
def genSuffixes : List (List Char) :=
  [['j', 'r', '.'], ['s', 'r', '.'], ['i', 'i', 'i'], ['i', 'i'], ['i', 'v']]

/-- Whether `cs` is exactly a match of `\s+(Jr\.|Sr\.|III|II|IV)\.?` reaching
the end of the string, case-insensitively. The alternatives contain no
whitespace and start with letters, so the `\s+` part must be the maximal
leading whitespace run and the remainder must be one alternative plus an
optional dot. -/
def suffixMatchCore (cs : List Char) : Bool :=
  let ws := cs.takeWhile isPySpace
  let rest := (cs.drop ws.length).map Char.toLower
  !ws.isEmpty && genSuffixes.any (fun suf => rest = suf || rest = suf ++ ['.'])

/-- Remove the leftmost end-anchored suffix match from `cs`, if any:
`re.sub` with the `$`-anchored pattern deletes `cs.drop i` for the least `i`
at which the pattern matches through to the end. -/
def removeCore (cs : List Char) : List Char :=
  match (List.range cs.length).find? (fun i => suffixMatchCore (cs.drop i)) with
  | some i => cs.take i
  | none => cs

/-- Step 1 of `normalize_player_name`. The Python `$` also matches just before a
single trailing newline, in which case the newline survives the deletion. -/
def removeGenSuffix (cs : List Char) : List Char :=
  if cs.getLast? = some '\n' then removeCore cs.dropLast ++ ['\n']
  else removeCore cs

/-- Keep set of the re.sub on the pattern `[^a-z\s]`: lower-case letters and
whitespace survive. -/
def keepChar (c : Char) : Bool :=
  ('a' ≤ c && c ≤ 'z') || isPySpace c

/-- Python `str.split()`: split on whitespace runs, dropping empty pieces. -/
def wordsAux : List Char → List Char → List (List Char)
  | [], acc => if acc.isEmpty then [] else [acc.reverse]
  | c :: cs, acc =>
    if isPySpace c then
      if acc.isEmpty then wordsAux cs [] else acc.reverse :: wordsAux cs []
    else wordsAux cs (c :: acc)

def pySplit (cs : List Char) : List (List Char) := wordsAux cs []

/-- `normalize_player_name(name)`: strip a generational suffix, lowercase,
drop characters outside `[a-z\s]`, collapse whitespace. -/
def normalize_player_name (s : String) : String :=
  let cs := removeGenSuffix s.data
  let cs := (cs.map Char.toLower).filter keepChar
  String.mk (List.intercalate [' '] (pySplit cs))

/-! ## fantasy/merge_pipeline.py — merge -/

/-- A row of the fantasy roster frame (`rosters.csv`); only the columns the
merge logic reads are modelled (`player_name`, `injured`, `total_points`). -/
structure FantasyRow where
  player_name : String
  injured : Bool
  total_points : ℚ
deriving DecidableEq, Repr

/-- A row of the real box-score frame fed to the merge; in this frame the stat
columns are always present and numeric. -/
structure BoxRow where
  player : String
  game_date : String
  pts : ℚ
  reb : ℚ
  ast : ℚ
  stl : ℚ
  blk : ℚ
deriving DecidableEq, Repr

/-- `fuzzy_match_players`: a pandas left outer join on the normalized name.
For each fantasy row in order: every stat row whose normalized `player` equals
the normalized `player_name` produces one output pair; with no match the
fantasy row is kept once with all real-stat columns null (`none` models the
NaN fill of the left join). -/
def fuzzy_match_players (fantasy_df : List FantasyRow) (real_df : List BoxRow) :
    List (FantasyRow × Option BoxRow) :=
  fantasy_df.flatMap (fun f =>
    let ms := real_df.filter
      (fun b => normalize_player_name b.player = normalize_player_name f.player_name)
    if ms.isEmpty then [(f, none)] else ms.map (fun b => (f, some b)))

/-- The scoring dict of `calculate_fantasy_points`; a custom dict may omit
keys, each `row.get` falling back to the default weight. Only the five keys
the computation reads are modelled. -/
structure Scoring where
  pts : Option ℚ
  reb : Option ℚ
  ast : Option ℚ
  stl : Option ℚ
  blk : Option ℚ
deriving DecidableEq, Repr

/-- Round half to even at a given rational, the Python `round` on an exact
value. -/
def roundHalfEven (q : ℚ) : ℤ :=
  let f := Int.floor q
  let frac := q - f
  if frac < 1 / 2 then f
  else if frac > 1 / 2 then f + 1
  else if f % 2 = 0 then f else f + 1

/-- `round(x, 2)` on an exact rational (binary floats idealised as exact
rationals). -/
def round2 (q : ℚ) : ℚ := (roundHalfEven (q * 100) : ℚ) / 100

/-- `calculate_fantasy_points(row, scoring)`: `scoring=None` selects the
standard weights; the five stats come from the merged row, where a NaN
(unmatched player, modelled `none`) propagates through the sum and the
rounding. -/
def calculate_fantasy_points (pts reb ast stl blk : Option ℚ)
    (scoring : Option Scoring) : Option ℚ :=
  let sc := scoring.getD
    { pts := some 1.0, reb := some 1.2, ast := some 1.5,
      stl := some 3.0, blk := some 3.0 }
  match pts, reb, ast, stl, blk with
  | some p, some r, some a, some s, some b =>
    some (round2 (p * sc.pts.getD 1.0 + r * sc.reb.getD 1.2 + a * sc.ast.getD 1.5
      + s * sc.stl.getD 3.0 + b * sc.blk.getD 3.0))
  | _, _, _, _, _ => none

/-- A row of the merged frame: the fantasy columns, the (possibly null) real
stat columns, and the derived columns appended by
`merge_fantasy_with_boxscores`. -/
structure MergedRow where
  fantasy : FantasyRow
  real : Option BoxRow
  fantasy_pts_estimated : Option ℚ
  pts_variance : Option ℚ
  has_real_stats : Bool
  missed_game : Bool
deriving DecidableEq, Repr

/-- The date pre-filter of `merge_fantasy_with_boxscores`:
`if date_str and ...: boxscores = boxscores[boxscores[game_date] == date_str]`.
A `None` or empty (falsy) date leaves the rows unfiltered. -/
def filterByDate (boxscores : List BoxRow) (date_str : Option String) :
    List BoxRow :=
  match date_str with
  | some d => if d ≠ "" then boxscores.filter (fun b => b.game_date = d)
              else boxscores
  | none => boxscores

/-- `merge_fantasy_with_boxscores(fantasy_rosters, boxscores, date_str)`:
filter the stat rows by `game_date == date_str` when a (truthy) date is given,
left-join on normalized names, then append the derived columns:
`fantasy_pts_estimated` (default scoring, NaN for unmatched rows),
`pts_variance = total_points - fantasy_pts_estimated`,
`has_real_stats = pts.notna()`, and
`missed_game = (has_real_stats == False) & (injured == False)`. -/
def merge_fantasy_with_boxscores (fantasy_rosters : List FantasyRow)
    (boxscores : List BoxRow) (date_str : Option String) : List MergedRow :=
  let boxscores := filterByDate boxscores date_str
  (fuzzy_match_players fantasy_rosters boxscores).map (fun fb =>
    let est := calculate_fantasy_points (fb.2.map BoxRow.pts) (fb.2.map BoxRow.reb)
      (fb.2.map BoxRow.ast) (fb.2.map BoxRow.stl) (fb.2.map BoxRow.blk) none
    let hrs := (fb.2.map BoxRow.pts).isSome
    { fantasy := fb.1
      real := fb.2
      fantasy_pts_estimated := est
      pts_variance := est.map (fun e => fb.1.total_points - e)
      has_real_stats := hrs
      missed_game := !hrs && !fb.1.injured })

/-! ## Concrete fixtures and auxiliary predicates used by the theorems -/

/-- A failed provider attempt, as the loop of `fetch_boxscores` sees it:
either the adapter raised, or it returned an empty batch or a batch rejected
by `validate_boxscores`. -/
def attemptFails (p : String × Adapter) (date_str : String)
    (game_id : Option String) : Prop :=
  (∃ e, p.2 date_str game_id = Except.error e) ∨
  (∃ bs, p.2 date_str game_id = Except.ok bs ∧
    (bs = [] ∨ validate_boxscores bs = false))

/-- A well-formed box-score record. -/
def goodBox : Box :=
  { game_id := some "0022400001", game_date := some "2024-10-28",
    player := some "LeBron James", team := some "LAL",
    pts := some 30, reb := some 10, ast := some 8 }

/-- A record with out-of-bounds points (pts = 150 > 100). -/
def badBox : Box := { goodBox with pts := some 150 }

/-- An adapter that raises. -/
def advRaise : Adapter := fun _ _ => Except.error "boom"

/-- An adapter returning a batch that fails validation. -/
def advBad : Adapter := fun _ _ => Except.ok [badBox]

/-- An adapter returning a valid batch. -/
def advGood : Adapter := fun _ _ => Except.ok [goodBox]

/-- Three providers: the first raises, the second returns invalid data, the
third returns valid data. -/
def cexSources : List (String × Adapter) :=
  [("P1", advRaise), ("P2", advBad), ("P3", advGood)]

/-- The result dictionary as initialised by `fetch_boxscores`. -/
def initResult : FetchResult :=
  { success := false, date := "2024-10-28", game_id := none, source := none,
    boxscores := [], errors := [] }

/-- A fantasy roster entry with no counterpart in the box scores. -/
def fantasyGhost : FantasyRow :=
  { player_name := "Nobody Anywhere", injured := false, total_points := 0 }

/-- A fantasy roster entry matching `boxRowLeBron` after normalization. -/
def fantasyLeBron : FantasyRow :=
  { player_name := "LeBron James Jr.", injured := false, total_points := 100 }

/-- A box-score row for the merge fixtures. -/
def boxRowLeBron : BoxRow :=
  { player := "lebron james", game_date := "2024-10-28",
    pts := 30, reb := 10, ast := 8, stl := 2, blk := 1 }

/-! ## Theorems — threshold evaluator -/

/-- C4: `qualifies` builds one check (stat ≥ threshold) per provided
threshold; absent thresholds contribute no check at all. With at least one
threshold provided, logic `any` is true iff some provided check passes, and
logic `all` is true iff every provided check passes. -/
theorem qualifies_provided_thresholds (pts ast reb : ℚ)
    (tp ta tr : Option ℤ) (h : tp ≠ none ∨ ta ≠ none ∨ tr ≠ none) :
    (qualifies pts ast reb tp ta tr "any" = true ↔
      (∃ t, tp = some t ∧ pts ≥ (t : ℚ)) ∨ (∃ t, ta = some t ∧ ast ≥ (t : ℚ)) ∨
      (∃ t, tr = some t ∧ reb ≥ (t : ℚ))) ∧
    (qualifies pts ast reb tp ta tr "all" = true ↔
      (∀ t, tp = some t → pts ≥ (t : ℚ)) ∧ (∀ t, ta = some t → ast ≥ (t : ℚ)) ∧
      (∀ t, tr = some t → reb ≥ (t : ℚ))) := by
  rcases tp with _ | x <;> rcases ta with _ | y <;> rcases tr with _ | z <;>
    simp_all [qualifies]

/-- Witness for C4 at the inputs of the spec examples. -/
theorem qualifies_provided_thresholds_witness :
    qualifies 25 0 0 (some 20) none none "any" = true ∧
    qualifies 25 0 0 (some 20) (some 10) none "all" = false := by
  constructor
  · exact (qualifies_provided_thresholds 25 0 0 (some 20) none none
      (Or.inl (by simp))).1.mpr (Or.inl ⟨20, rfl, by norm_num⟩)
  · have h := (qualifies_provided_thresholds 25 0 0 (some 20) (some 10) none
      (Or.inl (by simp))).2
    rw [Bool.eq_false_iff]
    intro hq
    have := (h.mp hq).2.1 10 rfl
    norm_num at this

/-- C5: with no thresholds provided, `qualifies` ignores the logic mode and
agrees with explicit thresholds (20, 5, 7) under logic `any`, i.e. it returns
pts ≥ 20 or ast ≥ 5 or reb ≥ 7. -/
theorem qualifies_no_thresholds_default (pts ast reb : ℚ) (logic : String) :
    qualifies pts ast reb none none none logic =
      qualifies pts ast reb (some 20) (some 5) (some 7) "any" := by
  simp [qualifies]
  rw [Bool.or_assoc]

/-! ## Theorems — validator -/

/-- The per-record check of `validate_boxscores`, unfolded. -/
lemma boxValid_iff (b : Box) : boxValid b = true ↔
    (b.game_id ≠ none ∧ b.game_date ≠ none ∧ b.player ≠ none ∧ b.team ≠ none ∧
     (∃ p, b.pts = some p ∧ 0 ≤ p ∧ p ≤ 100) ∧
     (∃ r, b.reb = some r ∧ 0 ≤ r ∧ r ≤ 40) ∧
     (∃ a, b.ast = some a ∧ 0 ≤ a ∧ a ≤ 30)) := by
  obtain ⟨gi, gd, pl, tm, p, r, a⟩ := b
  rcases p with _ | p <;> rcases r with _ | r <;> rcases a with _ | a <;>
    simp [boxValid, Option.isSome_iff_ne_none, and_assoc]

/-- C3: `validate_boxscores` rejects the empty batch; a non-empty batch is
accepted iff every record has all seven required fields and satisfies
pts ∈ [0,100], reb ∈ [0,40], ast ∈ [0,30] — one offending record rejects the
whole batch. The function is pure. -/
theorem validate_boxscores_spec :
    validate_boxscores [] = false ∧
    ∀ bs : List Box, bs ≠ [] →
      (validate_boxscores bs = true ↔
        ∀ b ∈ bs,
          b.game_id ≠ none ∧ b.game_date ≠ none ∧ b.player ≠ none ∧
          b.team ≠ none ∧
          (∃ p, b.pts = some p ∧ 0 ≤ p ∧ p ≤ 100) ∧
          (∃ r, b.reb = some r ∧ 0 ≤ r ∧ r ≤ 40) ∧
          (∃ a, b.ast = some a ∧ 0 ≤ a ∧ a ≤ 30)) := by
  refine ⟨rfl, fun bs hbs => ?_⟩
  rw [validate_boxscores, if_neg (by simpa using hbs)]
  simp [List.all_eq_true, boxValid_iff]

/-- Witness for C3: a concrete singleton batch on both sides of the
equivalence, plus the rejection of a batch containing one bad record. -/
theorem validate_boxscores_spec_witness :
    validate_boxscores [goodBox] = true ∧
    validate_boxscores [goodBox, badBox] = false := by
  constructor
  · refine (validate_boxscores_spec.2 [goodBox] (by simp)).mpr ?_
    intro b hb
    simp only [List.mem_singleton] at hb
    subst hb
    exact ⟨by simp [goodBox], by simp [goodBox], by simp [goodBox],
      by simp [goodBox], ⟨30, by simp [goodBox], by norm_num, by norm_num⟩,
      ⟨10, by simp [goodBox], by norm_num, by norm_num⟩,
      ⟨8, by simp [goodBox], by norm_num, by norm_num⟩⟩
  · rw [Bool.eq_false_iff]
    intro hv
    have := (validate_boxscores_spec.2 [goodBox, badBox] (by simp)).mp hv
      badBox (by simp)
    obtain ⟨-, -, -, -, ⟨p, hp, -, hple⟩, -, -⟩ := this
    rw [show badBox.pts = some 150 from rfl] at hp
    obtain rfl : (150 : ℚ) = p := by simpa using hp
    norm_num at hple

/-! ## Theorems — fallback controller -/

/-- Loop-level form of first-match-wins: after any prefix of failing
providers, a provider whose adapter returns a non-empty valid batch produces
the success result and ends the invocation trace at its own name. -/
lemma fetchLoop_wins (date_str : String) (game_id : Option String)
    (diskFails : Bool) (name : String) (f : Adapter)
    (post : List (String × Adapter)) (bs : List Box)
    (hok : f date_str game_id = Except.ok bs) (hne : bs ≠ [])
    (hval : validate_boxscores bs = true) :
    ∀ (pre : List (String × Adapter)) (r : FetchResult),
      (∀ p ∈ pre, attemptFails p date_str game_id) →
      (fetchLoop date_str game_id diskFails (pre ++ (name, f) :: post) r).1.success
          = true ∧
      (fetchLoop date_str game_id diskFails (pre ++ (name, f) :: post) r).1.source
          = some name ∧
      (fetchLoop date_str game_id diskFails (pre ++ (name, f) :: post) r).1.boxscores
          = bs ∧
      (fetchLoop date_str game_id diskFails (pre ++ (name, f) :: post) r).2
          = pre.map Prod.fst ++ [name] := by
  intro pre
  induction pre with
  | nil =>
    intro r _
    have hcond : (!bs.isEmpty && validate_boxscores bs) = true := by
      simp [hval, List.isEmpty_iff, hne]
    simp [fetchLoop, hok, hcond]
  | cons p pre ih =>
    intro r hpre
    obtain ⟨pname, pf⟩ := p
    have hfail := hpre (pname, pf) (by simp)
    have htail : ∀ q ∈ pre, attemptFails q date_str game_id :=
      fun q hq => hpre q (by simp [hq])
    rcases hfail with ⟨e, he⟩ | ⟨bs', hbs', hbad⟩
    · have hrec := ih { r with
        errors := r.errors ++ [pname ++ " error: " ++ e] } htail
      replace he : pf date_str game_id = Except.error e := he
      simp only [List.cons_append, fetchLoop]
      rw [he]
      exact ⟨hrec.1, hrec.2.1, hrec.2.2.1, by simp [hrec.2.2.2]⟩
    · have hcond : (!bs'.isEmpty && validate_boxscores bs') = false := by
        rcases hbad with rfl | hbad
        · simp
        · simp [hbad]
      have hrec := ih r htail
      replace hbs' : pf date_str game_id = Except.ok bs' := hbs'
      simp only [List.cons_append, fetchLoop]
      rw [hbs']
      simp only [hcond, Bool.false_eq_true, if_false]
      exact ⟨hrec.1, hrec.2.1, hrec.2.2.1, by simp [hrec.2.2.2]⟩

/-- C1: the first provider in priority order whose adapter returns a
non-empty batch passing `validate_boxscores` wins: the result has
success = true, source = that provider, boxscores = that batch, and the
invocation trace stops at that provider — no later provider is invoked, at
most one source succeeds, and no records are merged across sources. -/
theorem fetch_first_valid_provider_wins
    (pre post : List (String × Adapter)) (name : String) (f : Adapter)
    (date_str : String) (game_id : Option String) (diskFails : Bool)
    (bs : List Box)
    (hpre : ∀ p ∈ pre, attemptFails p date_str game_id)
    (hok : f date_str game_id = Except.ok bs) (hne : bs ≠ [])
    (hval : validate_boxscores bs = true) :
    (fetch_boxscores (pre ++ (name, f) :: post) date_str game_id none
        diskFails).1.success = true ∧
    (fetch_boxscores (pre ++ (name, f) :: post) date_str game_id none
        diskFails).1.source = some name ∧
    (fetch_boxscores (pre ++ (name, f) :: post) date_str game_id none
        diskFails).1.boxscores = bs ∧
    (fetch_boxscores (pre ++ (name, f) :: post) date_str game_id none
        diskFails).2 = pre.map Prod.fst ++ [name] := by
  have h := fetchLoop_wins date_str game_id diskFails name f post bs hok hne
    hval pre
    { success := false, date := date_str, game_id := game_id, source := none,
      boxscores := [], errors := [] } hpre
  simpa [fetch_boxscores, filterSources] using h

/-- Witness for C1: the three-provider fixture, where the winner is the third
provider and the trace is exactly the three names. -/
theorem fetch_first_valid_provider_wins_witness :
    (fetch_boxscores cexSources "2024-10-28" none none false).1.success
        = true ∧
    (fetch_boxscores cexSources "2024-10-28" none none false).1.source
        = some "P3" ∧
    (fetch_boxscores cexSources "2024-10-28" none none false).1.boxscores
        = [goodBox] ∧
    (fetch_boxscores cexSources "2024-10-28" none none false).2
        = ["P1", "P2", "P3"] := by
  have h := fetch_first_valid_provider_wins [("P1", advRaise), ("P2", advBad)]
    [] "P3" advGood "2024-10-28" none false [goodBox] ?_ rfl (by simp)
    (by decide)
  · simpa [cexSources] using h
  · intro p hp
    simp only [List.mem_cons, List.mem_singleton, List.not_mem_nil, or_false]
      at hp
    rcases hp with rfl | rfl
    · exact Or.inl ⟨"boom", rfl⟩
    · exact Or.inr ⟨[badBox], rfl, Or.inr (by decide)⟩

/-- Counterexample to C2 as stated: with a first provider that raises, a
second returning a batch failing validation (pts = 150) and a third returning
valid data, the errors list has length 1, not 2 — the invalid batch only
produces a printed diagnostic, no appended error. -/
theorem fetch_errors_cex :
    (fetch_boxscores cexSources "2024-10-28" none none false).1.source
        = some "P3" ∧
    (fetch_boxscores cexSources "2024-10-28" none none false).1.errors
        = ["P1 error: boom"] ∧
    ¬ (fetch_boxscores cexSources "2024-10-28" none none false).1.errors.length
        = 2 := by
  exact ⟨by decide, by decide, by decide⟩

/-- C2 (amended): an adapter that raises has the exception converted into one
appended error message and iteration continues; an adapter that returns an
empty list or a batch failing validation appends nothing to the errors list
(only a printed diagnostic) and iteration continues; in the run where the
first provider throws, the second returns a batch with pts = 150 and the
third returns valid data, the source is the third provider and errors has
length 1. -/
theorem fetch_error_accumulation
    (date_str : String) (game_id : Option String) (diskFails : Bool)
    (name : String) (f : Adapter) (rest : List (String × Adapter))
    (r : FetchResult) :
    (∀ e, f date_str game_id = Except.error e →
      fetchLoop date_str game_id diskFails ((name, f) :: rest) r =
        ((fetchLoop date_str game_id diskFails rest
            { r with errors := r.errors ++ [name ++ " error: " ++ e] }).1,
         name :: (fetchLoop date_str game_id diskFails rest
            { r with errors := r.errors ++ [name ++ " error: " ++ e] }).2)) ∧
    (∀ bs, f date_str game_id = Except.ok bs →
      bs = [] ∨ validate_boxscores bs = false →
      fetchLoop date_str game_id diskFails ((name, f) :: rest) r =
        ((fetchLoop date_str game_id diskFails rest r).1,
         name :: (fetchLoop date_str game_id diskFails rest r).2)) ∧
    (fetch_boxscores cexSources "2024-10-28" none none false).1.source
        = some "P3" ∧
    (fetch_boxscores cexSources "2024-10-28" none none false).1.errors.length
        = 1 := by
  refine ⟨?_, ?_, by decide, by decide⟩
  · intro e he
    simp only [fetchLoop]
    rw [he]
  · intro bs hbs hbad
    have hcond : (!bs.isEmpty && validate_boxscores bs) = false := by
      rcases hbad with rfl | hbad
      · simp
      · simp [hbad]
    simp only [fetchLoop]
    rw [hbs]
    simp only [hcond, Bool.false_eq_true, if_false]

/-- Witness for C2 (amended), instantiating the raising-provider clause at a
concrete provider list and result accumulator. -/
theorem fetch_error_accumulation_witness :
    fetchLoop "2024-10-28" none false [("P1", advRaise), ("P3", advGood)]
        initResult =
      ((fetchLoop "2024-10-28" none false [("P3", advGood)]
          { initResult with errors := initResult.errors ++ ["P1 error: boom"] }).1,
       "P1" :: (fetchLoop "2024-10-28" none false [("P3", advGood)]
          { initResult with errors := initResult.errors ++ ["P1 error: boom"] }).2) :=
  (fetch_error_accumulation "2024-10-28" none false "P1" advRaise
    [("P3", advGood)] initResult).1 "boom" rfl

/-- C6: a forced source that matches no known provider name short-circuits the
controller — no adapter is invoked (empty trace) and the result is the empty
failure with one descriptive error; a forced source matching a known provider
collapses the list of the source (`NBA_API`, then `ESPN_API`) to that single
provider. -/
theorem fetch_force_source_spec
    (sources : List (String × Adapter)) (date_str : String)
    (game_id : Option String) (diskFails : Bool) (s : String) (hs : s ≠ "")
    (hno : ∀ name ∈ sources.map Prod.fst, name ≠ s) :
    (fetch_boxscores sources date_str game_id (some s) diskFails =
      ({ success := false, date := date_str, game_id := game_id, source := none,
         boxscores := [],
         errors := ["All sources failed to return valid box scores"] }, [])) ∧
    ∀ nba espn : Adapter,
      filterSources (knownSources nba espn) (some "NBA_API")
          = [("NBA_API", nba)] ∧
      filterSources (knownSources nba espn) (some "ESPN_API")
          = [("ESPN_API", espn)] := by
  constructor
  · have hf : filterSources sources (some s) = [] := by
      simp only [filterSources, hs, if_pos, ne_eq, not_false_iff, if_true]
      rw [List.filter_eq_nil_iff]
      intro p hp
      simpa using hno p.1 (List.mem_map_of_mem _ hp)
    rw [fetch_boxscores, hf]
    rfl
  · intro nba espn
    constructor <;> simp [filterSources, knownSources, List.filter]

/-- Witness for C6 at a concrete unknown forced source over the
three-provider fixture. -/
theorem fetch_force_source_spec_witness :
    fetch_boxscores cexSources "2024-10-28" none (some "NOPE") false =
      ({ success := false, date := "2024-10-28", game_id := none, source := none,
         boxscores := [],
         errors := ["All sources failed to return valid box scores"] }, []) :=
  (fetch_force_source_spec cexSources "2024-10-28" none false "NOPE"
    (by decide) (by decide)).1

/-- The provider loop is independent of the disk model: `persist_boxscores`
never raises and its output is discarded. -/
lemma fetchLoop_disk_eq (date_str : String) (game_id : Option String)
    (d1 d2 : Bool) :
    ∀ (l : List (String × Adapter)) (r : FetchResult),
      fetchLoop date_str game_id d1 l r = fetchLoop date_str game_id d2 l r := by
  intro l
  induction l with
  | nil => intro r; rfl
  | cons p rest ih =>
    intro r
    obtain ⟨name, f⟩ := p
    cases hf : f date_str game_id with
    | ok bs =>
      simp only [fetchLoop]
      rw [hf]
      by_cases hc : (!bs.isEmpty && validate_boxscores bs) = true
      · simp [hc]
      · simp [hc, ih]
    | error e =>
      simp only [fetchLoop]
      rw [hf]
      simp [ih]

/-- C9: the `FetchResult` of `fetch_boxscores` (and the set of adapters
invoked) is identical whether the persistence step of `persist_boxscores`
succeeds or fails — failures inside it are swallowed and never reach the
caller. -/
theorem fetch_result_persistence_independent
    (sources : List (String × Adapter)) (date_str : String)
    (game_id : Option String) (force_source : Option String) (d1 d2 : Bool) :
    fetch_boxscores sources date_str game_id force_source d1 =
      fetch_boxscores sources date_str game_id force_source d2 := by
  rw [fetch_boxscores, fetch_boxscores, fetchLoop_disk_eq]

/-- Everything kept and produced by the provider loop, starting from a clean
accumulator: the echoed date and game id, the shape of a success, and the
shape of a failure. -/
lemma fetchLoop_invariant (date_str : String) (game_id : Option String)
    (dk : Bool) :
    ∀ (l : List (String × Adapter)) (r : FetchResult),
      r.success = false → r.source = none → r.boxscores = [] →
      ((fetchLoop date_str game_id dk l r).1.date = r.date ∧
       (fetchLoop date_str game_id dk l r).1.game_id = r.game_id ∧
       ((fetchLoop date_str game_id dk l r).1.success = true →
          ∃ name, (fetchLoop date_str game_id dk l r).1.source = some name ∧
            name ∈ l.map Prod.fst ∧
            (fetchLoop date_str game_id dk l r).1.boxscores ≠ [] ∧
            validate_boxscores (fetchLoop date_str game_id dk l r).1.boxscores
              = true) ∧
       ((fetchLoop date_str game_id dk l r).1.success = false →
          (fetchLoop date_str game_id dk l r).1.source = none ∧
          (fetchLoop date_str game_id dk l r).1.boxscores = [] ∧
          (fetchLoop date_str game_id dk l r).1.errors ≠ [])) := by
  intro l
  induction l with
  | nil =>
    intro r hsu hso hbx
    refine ⟨rfl, rfl, ?_, ?_⟩
    · intro h
      rw [show (fetchLoop date_str game_id dk [] r).1.success = r.success
        from rfl] at h
      rw [hsu] at h
      exact absurd h (by simp)
    · intro _
      exact ⟨hso, hbx, by simp [fetchLoop]⟩
  | cons p rest ih =>
    intro r hsu hso hbx
    obtain ⟨name, f⟩ := p
    cases hf : f date_str game_id with
    | ok bs =>
      by_cases hc : (!bs.isEmpty && validate_boxscores bs) = true
      · have hne : bs ≠ [] := by
          have := (Bool.and_eq_true _ _).mp hc
          simpa [List.isEmpty_iff] using this.1
        have hval : validate_boxscores bs = true :=
          ((Bool.and_eq_true _ _).mp hc).2
        simp only [fetchLoop]
        rw [hf]
        simp only [hc, if_true]
        exact ⟨trivial, trivial, fun _ => ⟨name, rfl, by simp, hne, hval⟩,
          fun h => absurd h (by simp)⟩
      · have hrec := ih r hsu hso hbx
        simp only [fetchLoop]
        rw [hf]
        simp only [hc, if_false]
        refine ⟨hrec.1, hrec.2.1, ?_, hrec.2.2.2⟩
        intro h
        obtain ⟨n, hn, hmem, hbs, hv⟩ := hrec.2.2.1 h
        exact ⟨n, hn, by simp [hmem], hbs, hv⟩
    | error e =>
      have hrec := ih { r with
        errors := r.errors ++ [name ++ " error: " ++ e] } hsu hso hbx
      simp only [fetchLoop]
      rw [hf]
      refine ⟨hrec.1, hrec.2.1, ?_, hrec.2.2.2⟩
      intro h
      obtain ⟨n, hn, hmem, hbs, hv⟩ := hrec.2.2.1 h
      exact ⟨n, hn, by simp [hmem], hbs, hv⟩

/-- Every provider kept by `filterSources` comes from the original list. -/
lemma mem_filterSources (sources : List (String × Adapter))
    (force_source : Option String) :
    ∀ p ∈ filterSources sources force_source, p ∈ sources := by
  intro p hp
  cases force_source with
  | none => exact hp
  | some s =>
    by_cases h : s = ""
    · simpa [filterSources, h] using hp
    · rw [filterSources] at hp
      simp only [h, ne_eq, not_false_iff, if_true] at hp
      exact (List.mem_filter.mp hp).1

/-- C10: the dictionary returned by `fetch_boxscores` echoes `date` and
`game_id`; success holds iff a source is recorded iff the boxscores are
non-empty; a recorded source is a known provider name and the returned batch
passed `validate_boxscores`; a failure has no source, no boxscores and a
non-empty errors list; and a successful result may still carry error messages
from providers that failed earlier (concrete run appended). -/
theorem fetch_result_shape
    (sources : List (String × Adapter)) (date_str : String)
    (game_id : Option String) (force_source : Option String) (dk : Bool) :
    ((fetch_boxscores sources date_str game_id force_source dk).1.date
        = date_str ∧
     (fetch_boxscores sources date_str game_id force_source dk).1.game_id
        = game_id ∧
     ((fetch_boxscores sources date_str game_id force_source dk).1.success
          = true ↔
       (fetch_boxscores sources date_str game_id force_source dk).1.source
          ≠ none) ∧
     ((fetch_boxscores sources date_str game_id force_source dk).1.success
          = true ↔
       (fetch_boxscores sources date_str game_id force_source dk).1.boxscores
          ≠ []) ∧
     ((fetch_boxscores sources date_str game_id force_source dk).1.success
          = true →
        ∃ name,
          (fetch_boxscores sources date_str game_id force_source dk).1.source
            = some name ∧
          name ∈ sources.map Prod.fst ∧
          validate_boxscores
            (fetch_boxscores sources date_str game_id force_source dk).1.boxscores
            = true) ∧
     ((fetch_boxscores sources date_str game_id force_source dk).1.success
          = false →
        (fetch_boxscores sources date_str game_id force_source dk).1.source
          = none ∧
        (fetch_boxscores sources date_str game_id force_source dk).1.boxscores
          = [] ∧
        (fetch_boxscores sources date_str game_id force_source dk).1.errors
          ≠ [])) ∧
    (fetch_boxscores [("P1", advRaise), ("P3", advGood)] "2024-10-28" none none
        false).1.success = true ∧
    (fetch_boxscores [("P1", advRaise), ("P3", advGood)] "2024-10-28" none none
        false).1.errors = ["P1 error: boom"] := by
  have hinv := fetchLoop_invariant date_str game_id dk
    (filterSources sources force_source)
    { success := false, date := date_str, game_id := game_id, source := none,
      boxscores := [], errors := [] } rfl rfl rfl
  rw [show fetch_boxscores sources date_str game_id force_source dk =
    fetchLoop date_str game_id dk (filterSources sources force_source)
      { success := false, date := date_str, game_id := game_id, source := none,
        boxscores := [], errors := [] } from rfl]
  refine ⟨⟨hinv.1, hinv.2.1, ?_, ?_, ?_, hinv.2.2.2⟩, by decide, by decide⟩
  · constructor
    · intro h
      obtain ⟨n, hn, -, -, -⟩ := hinv.2.2.1 h
      simp [hn]
    · intro h
      by_contra hs
      rw [Bool.not_eq_true] at hs
      exact h (hinv.2.2.2 hs).1
  · constructor
    · intro h
      obtain ⟨-, -, -, hbs, -⟩ := hinv.2.2.1 h
      exact hbs
    · intro h
      by_contra hs
      rw [Bool.not_eq_true] at hs
      exact h (hinv.2.2.2 hs).2.1
  · intro h
    obtain ⟨n, hn, hmem, hbs, hv⟩ := hinv.2.2.1 h
    refine ⟨n, hn, ?_, hv⟩
    obtain ⟨p, hp, rfl⟩ := List.mem_map.mp hmem
    exact List.mem_map_of_mem _ (mem_filterSources sources force_source p hp)

/-- Witness for C10: the success clause instantiated on the three-provider
fixture. -/
theorem fetch_result_shape_witness :
    ∃ name,
      (fetch_boxscores cexSources "2024-10-28" none none false).1.source
        = some name ∧
      name ∈ cexSources.map Prod.fst ∧
      validate_boxscores
        (fetch_boxscores cexSources "2024-10-28" none none false).1.boxscores
        = true :=
  (fetch_result_shape cexSources "2024-10-28" none none false).1.2.2.2.2.1
    (by decide)

/-! ## Theorems — merge pipeline -/

/-- C7: in every merged row, `fantasy_pts_estimated` is
pts·1.0 + reb·1.2 + ast·1.5 + stl·3.0 + blk·3.0 rounded to two decimals when
real stats are present (and null when they are absent); `has_real_stats` holds
iff the pts column is non-null; `missed_game` holds iff the stats are absent
and the player is not injured. A fantasy player matching no stat record
yields a row with `has_real_stats = false`, and `missed_game = true` when
additionally not injured. A supplied scoring dict replaces the default
weights. -/
theorem merge_derived_fields (fantasy : List FantasyRow) (box : List BoxRow)
    (date_str : Option String) :
    (∀ row ∈ merge_fantasy_with_boxscores fantasy box date_str,
       (∀ b, row.real = some b →
          row.fantasy_pts_estimated =
            some (round2 (b.pts * 1.0 + b.reb * 1.2 + b.ast * 1.5
              + b.stl * 3.0 + b.blk * 3.0))) ∧
       (row.real = none → row.fantasy_pts_estimated = none) ∧
       (row.has_real_stats = true ↔ (row.real.map BoxRow.pts).isSome = true) ∧
       (row.missed_game = true ↔
         row.has_real_stats = false ∧ row.fantasy.injured = false)) ∧
    (∀ f ∈ fantasy,
       (∀ b ∈ box,
          normalize_player_name b.player ≠ normalize_player_name f.player_name) →
       ∃ row ∈ merge_fantasy_with_boxscores fantasy box date_str,
         row.fantasy = f ∧ row.real = none ∧ row.has_real_stats = false ∧
         (f.injured = false → row.missed_game = true)) ∧
    (∀ p r a s b w1 w2 w3 w4 w5 : ℚ,
       calculate_fantasy_points (some p) (some r) (some a) (some s) (some b)
           (some { pts := some w1, reb := some w2, ast := some w3,
                   stl := some w4, blk := some w5 }) =
         some (round2 (p * w1 + r * w2 + a * w3 + s * w4 + b * w5))) := by
  refine ⟨?_, ?_, ?_⟩
  · intro row hrow
    rw [merge_fantasy_with_boxscores] at hrow
    obtain ⟨fb, hfb, rfl⟩ := List.mem_map.mp hrow
    obtain ⟨f, rb⟩ := fb
    refine ⟨?_, ?_, ?_, ?_⟩
    · intro b hb
      obtain rfl : rb = some b := hb
      simp [calculate_fantasy_points]
    · intro hb
      obtain rfl : rb = none := hb
      simp [calculate_fantasy_points]
    · cases rb <;> simp
    · cases rb <;> cases hinj : f.injured <;> simp [hinj]
  · intro f hf hnomatch
    have hsub : ∀ b ∈ filterByDate box date_str, b ∈ box := by
      intro b hb
      cases date_str with
      | none => exact hb
      | some d =>
        by_cases hd : d = ""
        · simpa [filterByDate, hd] using hb
        · rw [filterByDate, if_pos hd] at hb
          exact (List.mem_filter.mp hb).1
    have hnil : (filterByDate box date_str).filter (fun b =>
        normalize_player_name b.player = normalize_player_name f.player_name)
          = [] := by
      rw [List.filter_eq_nil_iff]
      intro b hb
      simpa using hnomatch b (hsub b hb)
    have hmem : (f, (none : Option BoxRow)) ∈
        fuzzy_match_players fantasy (filterByDate box date_str) := by
      rw [fuzzy_match_players]
      apply List.mem_flatMap.mpr
      refine ⟨f, hf, ?_⟩
      rw [hnil]
      simp
    rw [merge_fantasy_with_boxscores]
    refine ⟨_, List.mem_map.mpr ⟨(f, none), hmem, rfl⟩, rfl, rfl, rfl, ?_⟩
    intro hinj
    simp [hinj]
  · intro p r a s b w1 w2 w3 w4 w5
    simp [calculate_fantasy_points]

/-- Witness for C7: the unmatched-player clause instantiated on a concrete
roster and box-score list. -/
theorem merge_derived_fields_witness :
    ∃ row ∈ merge_fantasy_with_boxscores [fantasyGhost] [boxRowLeBron] none,
      row.fantasy = fantasyGhost ∧ row.real = none ∧
      row.has_real_stats = false ∧
      (fantasyGhost.injured = false → row.missed_game = true) := by
  refine (merge_derived_fields [fantasyGhost] [boxRowLeBron] none).2.1
    fantasyGhost (by simp) ?_
  intro b hb
  simp only [List.mem_singleton] at hb
  subst hb
  decide

/-- C8: `normalize_player_name` strips generational suffixes, lowercases,
removes non-alphabetic characters and collapses whitespace, and the merge
matches a fantasy player to a stat record iff the two normalized names are
exactly equal — no edit-distance fuzziness. -/
theorem normalize_and_exact_match :
    normalize_player_name "LeBron James Jr." = "lebron james" ∧
    normalize_player_name "lebron james" = "lebron james" ∧
    normalize_player_name "Gary Payton II" = "gary payton" ∧
    ∀ (fantasy : List FantasyRow) (real_df : List BoxRow) (f : FantasyRow)
      (b : BoxRow),
      ((f, some b) ∈ fuzzy_match_players fantasy real_df ↔
        f ∈ fantasy ∧ b ∈ real_df ∧
        normalize_player_name f.player_name = normalize_player_name b.player) := by
  refine ⟨by decide, by decide, by decide, ?_⟩
  intro fantasy real_df f b
  constructor
  · intro hmem
    rw [fuzzy_match_players] at hmem
    obtain ⟨f', hf', hin⟩ := List.mem_flatMap.mp hmem
    by_cases hempty : (real_df.filter (fun bb =>
        normalize_player_name bb.player
          = normalize_player_name f'.player_name)).isEmpty
    · rw [if_pos hempty] at hin
      simp at hin
    · rw [if_neg hempty] at hin
      obtain ⟨bb, hbb, heq⟩ := List.mem_map.mp hin
      injection heq with h1 h2
      subst h1
      injection h2 with h2
      subst h2
      have hfi := List.mem_filter.mp hbb
      exact ⟨hf', hfi.1, (of_decide_eq_true hfi.2).symm⟩
  · rintro ⟨hf, hb, heq⟩
    rw [fuzzy_match_players]
    apply List.mem_flatMap.mpr
    refine ⟨f, hf, ?_⟩
    have hbf : b ∈ real_df.filter (fun bb =>
        normalize_player_name bb.player
          = normalize_player_name f.player_name) :=
      List.mem_filter.mpr ⟨hb, by simp [heq]⟩
    have hne : real_df.filter (fun bb =>
        normalize_player_name bb.player
          = normalize_player_name f.player_name) ≠ [] := by
      intro h
      rw [h] at hbf
      exact absurd hbf (List.not_mem_nil _)
    rw [if_neg (by simpa [List.isEmpty_iff] using hne)]
    exact List.mem_map.mpr ⟨b, hbf, rfl⟩

end StatSearch
